import Mathlib

/-!
Verification of the table-lifecycle DDL handlers of `src/ddl/table.go`
(package `ddl` of the tidb repository).

The embedding is a shallow one.  The per-job handlers `onCreateTable`,
`onDropTable`, `onTruncateTable`, `getTableInfo` and `delReorgTable` are
translated function-by-function from the Go source.  The metadata store
(`meta.Meta`: ListTables / GetTable / CreateTable / UpdateTable / DropTable,
the schema-version counter and the history ledger) lives outside
`src/ddl/table.go`; it is modelled from the spec as a pure record
`MetaStore`, with the table catalog represented as an association list keyed
by (schema identifier, table identifier).

Transient store failures (any store error other than the typed not-found
errors) are modelled by a fault oracle: a `List Bool` consumed one entry per
store round trip; `true` makes that round trip fail with a transient error.
Passing `[]` is the fault-free run (every round trip succeeds).

Each handler returns the triple (resulting store, resulting job, optional
error), mirroring the Go code which mutates the job in place and returns an
error; the store component on an error return is the partial work of the
enclosing transaction, which the caller discards.
-/

/-- Visibility state of a table descriptor (`model.SchemaState` in Go):
None, Public, WriteOnly, DeleteOnly. -/
inductive SchemaState where
  | none
  | public
  | writeOnly
  | deleteOnly
  deriving DecidableEq, Repr

/-- Outcome state of a job (`model.JobRunning` / `JobDone` / `JobCancelled`). -/
inductive JobState where
  | running
  | done
  | cancelled
  deriving DecidableEq, Repr

/-- The error outcomes a handler can surface, one constructor per typed error
used in `src/ddl/table.go`, plus `transient` for any other store error. -/
inductive DDLErr where
  | decodeErr
  | dbNotExists
  | tableNotExists
  | tableExists
  | invalidTableState
  | transient
  deriving DecidableEq, Repr

/-- Table descriptor (`model.TableInfo`): identifier, case-normalized name
(`Name.L`), original name (`Name.O`), column definitions (kept abstract as a
list of column names), and the visibility state. -/
structure TableInfo where
  id : Int
  nameL : String
  nameO : String
  cols : List String
  state : SchemaState
  deriving DecidableEq, Repr

/-- Encoded job arguments: a table descriptor for create jobs, a new table
identifier for truncate jobs.  `job.DecodeArgs` succeeds exactly when the
constructor matches what the handler asks for. -/
inductive JobArgs where
  | createArgs (tbInfo : TableInfo)
  | truncArgs (newTableID : Int)
  deriving DecidableEq, Repr

/-- A DDL job (`model.Job`): identifier, target schema and table identifiers,
encoded arguments, outcome state and the visibility sub-state. -/
structure Job where
  id : Int
  schemaID : Int
  tableID : Int
  args : JobArgs
  state : JobState
  schemaState : SchemaState
  deriving DecidableEq, Repr

/-- A history ledger entry: {version, job identifier, descriptor snapshot}. -/
structure HistoryEntry where
  ver : Int
  jobID : Int
  tbl : TableInfo
  deriving DecidableEq, Repr

/-- Modelled from the spec: the metadata store consumed through the
`meta.Meta` interface (outside `src/ddl/table.go`) — the set of existing
schemas, the table catalog keyed by (schema identifier, table identifier),
the monotonic schema-version counter, and the append-only history ledger. -/
structure MetaStore where
  schemas : List Int
  tables : List (Int × TableInfo)
  version : Int
  history : List HistoryEntry
  deriving DecidableEq, Repr

/-- Consume one entry of the fault oracle: the head says whether the next
store round trip fails transiently; an empty oracle means no failures. -/
def popFault : List Bool → Bool × List Bool
  | [] => (false, [])
  | b :: r => (b, r)

/-- First catalog entry for the given (schema identifier, table identifier). -/
def lookupTable (sid tid : Int) : List (Int × TableInfo) → Option TableInfo
  | [] => Option.none
  | e :: rest => if e.1 = sid ∧ e.2.id = tid then some e.2 else lookupTable sid tid rest

/-- Replace every catalog entry of the given schema whose identifier matches
`tbl.id` with `tbl`. -/
def updateList (sid : Int) (tbl : TableInfo) : List (Int × TableInfo) → List (Int × TableInfo)
  | [] => []
  | e :: rest =>
    if e.1 = sid ∧ e.2.id = tbl.id then (sid, tbl) :: updateList sid tbl rest
    else e :: updateList sid tbl rest

/-- Remove every catalog entry for the given (schema identifier, table
identifier). -/
def removeTable (sid tid : Int) : List (Int × TableInfo) → List (Int × TableInfo)
  | [] => []
  | e :: rest =>
    if e.1 = sid ∧ e.2.id = tid then removeTable sid tid rest
    else e :: removeTable sid tid rest

/-- Modelled from the spec: `meta.Meta.ListTables` — all descriptors of the
schema, or a DB-not-exists failure (`Option.none`) when the schema is
missing. -/
def listTablesB (sid : Int) (s : MetaStore) : Option (List TableInfo) :=
  if sid ∈ s.schemas then some ((s.tables.filter (fun e => e.1 = sid)).map Prod.snd)
  else Option.none

/-- Modelled from the spec: `meta.Meta.GetTable` — outer `Option.none` is the
DB-not-exists failure, inner `Option.none` means the schema exists but holds
no such table. -/
def getTableB (sid tid : Int) (s : MetaStore) : Option (Option TableInfo) :=
  if sid ∈ s.schemas then some (lookupTable sid tid s.tables) else Option.none

/-- Modelled from the spec: `meta.Meta.CreateTable` — persist the descriptor
under (schema identifier, descriptor identifier). -/
def createTableP (sid : Int) (tbl : TableInfo) (s : MetaStore) : MetaStore :=
  { s with tables := removeTable sid tbl.id s.tables ++ [(sid, tbl)] }

/-- Modelled from the spec: `meta.Meta.UpdateTable` — overwrite the persisted
descriptor with the same identifier. -/
def updateTableP (sid : Int) (tbl : TableInfo) (s : MetaStore) : MetaStore :=
  { s with tables := updateList sid tbl s.tables }

/-- Modelled from the spec: `meta.Meta.DropTable` — remove the descriptor
from the store. -/
def dropTableP (sid tid : Int) (s : MetaStore) : MetaStore :=
  { s with tables := removeTable sid tid s.tables }

/-- Modelled from the spec: `addTableHistoryInfo` (outside
`src/ddl/table.go`) — append exactly one {version, job, snapshot} entry to
the history ledger, in the same transaction as the mutation. -/
def addTableHistoryInfo (s : MetaStore) (ver : Int) (jobID : Int) (tbl : TableInfo) : MetaStore :=
  { s with history := s.history ++ [{ ver := ver, jobID := jobID, tbl := tbl }] }

/-- `job.DecodeArgs(tbInfo)` in the create handler: succeeds exactly when the
arguments carry a table descriptor. -/
def decodeCreateArgs : JobArgs → Option TableInfo
  | JobArgs.createArgs tb => some tb
  | _ => Option.none

/-- `job.DecodeArgs(&newTableID)` in the truncate handler: succeeds exactly
when the arguments carry a new table identifier. -/
def decodeTruncArgs : JobArgs → Option Int
  | JobArgs.truncArgs n => some n
  | _ => Option.none

/-- The name-collision loop of `onCreateTable`: walk the schema's tables; on
a name match with a different identifier, fail (table exists); on a name
match with the same identifier, continue with the existing descriptor. -/
def createNameScan (tbInfo : TableInfo) : List TableInfo → Except Unit TableInfo
  | [] => Except.ok tbInfo
  | tbl :: rest =>
    if tbl.nameL = tbInfo.nameL then
      if tbl.id = tbInfo.id then createNameScan tbl rest
      else Except.error ()
    else createNameScan tbInfo rest

/-- `onCreateTable` from `src/ddl/table.go`: decode the candidate descriptor,
force its state to None, list the schema's tables (cancelling on a missing
schema), scan for name collisions, bump the schema version, and on state
None persist the descriptor as Public, mark the job Done and record the
history entry; any other state is an invalid-state error. -/
def onCreateTable (s : MetaStore) (job : Job) (faults : List Bool) :
    MetaStore × Job × Option DDLErr :=
  match decodeCreateArgs job.args with
  | Option.none => (s, { job with state := JobState.cancelled }, some DDLErr.decodeErr)
  | some tb0 =>
    match popFault faults with
    | (true, _) => (s, job, some DDLErr.transient)
    | (false, fs1) =>
      match listTablesB job.schemaID s with
      | Option.none => (s, { job with state := JobState.cancelled }, some DDLErr.dbNotExists)
      | some tables =>
        match createNameScan { tb0 with state := SchemaState.none } tables with
        | Except.error _ => (s, { job with state := JobState.cancelled }, some DDLErr.tableExists)
        | Except.ok tbInfo =>
          match popFault fs1 with
          | (true, _) => (s, job, some DDLErr.transient)
          | (false, fs2) =>
            match tbInfo.state with
            | SchemaState.none =>
              match popFault fs2 with
              | (true, _) =>
                ({ s with version := s.version + 1 },
                 { job with schemaState := SchemaState.public }, some DDLErr.transient)
              | (false, _) =>
                (addTableHistoryInfo
                   (createTableP job.schemaID { tbInfo with state := SchemaState.public }
                     { s with version := s.version + 1 })
                   (s.version + 1) job.id { tbInfo with state := SchemaState.public },
                 { job with schemaState := SchemaState.public, state := JobState.done },
                 Option.none)
            | _ => ({ s with version := s.version + 1 }, job, some DDLErr.invalidTableState)

/-- `dropTableData` from `src/ddl/table.go`, over the count of orphaned rows
still encoded under the table's key range.  Modelled from the spec: its
callee (the bounded delete-keys-under-a-key-range primitive, outside
`src/ddl/table.go`) deletes at most `limit` rows and reports how many it
deleted; the result is (deleted count, rows remaining). -/
def dropTableData (remaining : Nat) (limit : Nat) : Nat × Nat :=
  (min remaining limit, remaining - min remaining limit)

/-- `delReorgTable` from `src/ddl/table.go`: delete one batch of at most
`defaultBatchSize` orphaned rows (the constant itself is defined outside
`src/ddl/table.go`, so it is a parameter here); when the batch came back
short, reset the job's visibility sub-state and mark the job Done. -/
def delReorgTable (defaultBatchSize : Nat) (remaining : Nat) (job : Job) :
    Nat × Job × Option DDLErr :=
  match dropTableData remaining defaultBatchSize with
  | (delCount, rest) =>
    if delCount < defaultBatchSize then
      (rest, { job with schemaState := SchemaState.none, state := JobState.done }, Option.none)
    else (rest, job, Option.none)

/-- `onDropTable` from `src/ddl/table.go`: fetch the descriptor (cancelling
on missing schema or table), bump the schema version, then advance exactly
one step: Public to WriteOnly, WriteOnly to DeleteOnly, or DeleteOnly to
removed (persist state None, drop the descriptor, mark Done, record the
history entry); state None is an invalid-state error.  As in the Go source,
the error of the final UpdateTable call is overwritten by the DropTable
call's result. -/
def onDropTable (s : MetaStore) (job : Job) (faults : List Bool) :
    MetaStore × Job × Option DDLErr :=
  match popFault faults with
  | (true, _) => (s, job, some DDLErr.transient)
  | (false, fs1) =>
    match getTableB job.schemaID job.tableID s with
    | Option.none => (s, { job with state := JobState.cancelled }, some DDLErr.dbNotExists)
    | some Option.none => (s, { job with state := JobState.cancelled }, some DDLErr.tableNotExists)
    | some (some tblInfo) =>
      match popFault fs1 with
      | (true, _) => (s, job, some DDLErr.transient)
      | (false, fs2) =>
        match tblInfo.state with
        | SchemaState.public =>
          match popFault fs2 with
          | (true, _) =>
            ({ s with version := s.version + 1 },
             { job with schemaState := SchemaState.writeOnly }, some DDLErr.transient)
          | (false, _) =>
            (updateTableP job.schemaID { tblInfo with state := SchemaState.writeOnly }
               { s with version := s.version + 1 },
             { job with schemaState := SchemaState.writeOnly }, Option.none)
        | SchemaState.writeOnly =>
          match popFault fs2 with
          | (true, _) =>
            ({ s with version := s.version + 1 },
             { job with schemaState := SchemaState.deleteOnly }, some DDLErr.transient)
          | (false, _) =>
            (updateTableP job.schemaID { tblInfo with state := SchemaState.deleteOnly }
               { s with version := s.version + 1 },
             { job with schemaState := SchemaState.deleteOnly }, Option.none)
        | SchemaState.deleteOnly =>
          match popFault fs2 with
          | (u, fs3) =>
            match popFault fs3 with
            | (true, _) =>
              ((if u then { s with version := s.version + 1 }
                else updateTableP job.schemaID { tblInfo with state := SchemaState.none }
                  { s with version := s.version + 1 }),
               job, some DDLErr.transient)
            | (false, _) =>
              (addTableHistoryInfo
                 (dropTableP job.schemaID job.tableID
                   (if u then { s with version := s.version + 1 }
                    else updateTableP job.schemaID { tblInfo with state := SchemaState.none }
                      { s with version := s.version + 1 }))
                 (s.version + 1) job.id { tblInfo with state := SchemaState.none },
               { job with state := JobState.done, schemaState := SchemaState.none },
               Option.none)
        | SchemaState.none =>
          ({ s with version := s.version + 1 }, job, some DDLErr.invalidTableState)

/-- `getTableInfo` from `src/ddl/table.go`: fetch the persisted descriptor,
cancelling on a missing schema or table, and hand it out only when its state
is exactly Public; any other state cancels the job with an invalid-state
error. -/
def getTableInfo (s : MetaStore) (job : Job) (faults : List Bool) :
    Option TableInfo × Job × Option DDLErr :=
  match popFault faults with
  | (true, _) => (Option.none, job, some DDLErr.transient)
  | (false, _) =>
    match getTableB job.schemaID job.tableID s with
    | Option.none =>
      (Option.none, { job with state := JobState.cancelled }, some DDLErr.dbNotExists)
    | some Option.none =>
      (Option.none, { job with state := JobState.cancelled }, some DDLErr.tableNotExists)
    | some (some tblInfo) =>
      if tblInfo.state = SchemaState.public then (some tblInfo, job, Option.none)
      else (Option.none, { job with state := JobState.cancelled }, some DDLErr.invalidTableState)

/-- `onTruncateTable` from `src/ddl/table.go`: decode the new table
identifier, fetch the old descriptor (cancelling on missing schema or
table), drop the old descriptor, re-insert it under the new identifier (a
failure of either of those two calls cancels the job), bump the schema
version, mark the job Done and record the history entry. -/
def onTruncateTable (s : MetaStore) (job : Job) (faults : List Bool) :
    MetaStore × Job × Option DDLErr :=
  match decodeTruncArgs job.args with
  | Option.none => (s, { job with state := JobState.cancelled }, some DDLErr.decodeErr)
  | some newTableID =>
    match popFault faults with
    | (true, _) => (s, job, some DDLErr.transient)
    | (false, fs1) =>
      match getTableB job.schemaID job.tableID s with
      | Option.none => (s, { job with state := JobState.cancelled }, some DDLErr.dbNotExists)
      | some Option.none =>
        (s, { job with state := JobState.cancelled }, some DDLErr.tableNotExists)
      | some (some tblInfo) =>
        match popFault fs1 with
        | (true, _) => (s, { job with state := JobState.cancelled }, some DDLErr.transient)
        | (false, fs2) =>
          match popFault fs2 with
          | (true, _) =>
            (dropTableP job.schemaID job.tableID s,
             { job with state := JobState.cancelled }, some DDLErr.transient)
          | (false, fs3) =>
            match popFault fs3 with
            | (true, _) =>
              (createTableP job.schemaID { tblInfo with id := newTableID }
                 (dropTableP job.schemaID job.tableID s),
               job, some DDLErr.transient)
            | (false, _) =>
              (addTableHistoryInfo
                 { createTableP job.schemaID { tblInfo with id := newTableID }
                     (dropTableP job.schemaID job.tableID s) with version := s.version + 1 }
                 (s.version + 1) job.id { tblInfo with id := newTableID },
               { job with state := JobState.done }, Option.none)

/-! ### Catalog lemmas -/

theorem lookupTable_id {sid tid : Int} {l : List (Int × TableInfo)} {tbl : TableInfo}
    (h : lookupTable sid tid l = some tbl) : tbl.id = tid := by
  induction l with
  | nil => simp [lookupTable] at h
  | cons e rest ih =>
    rw [lookupTable] at h
    by_cases hc : e.1 = sid ∧ e.2.id = tid
    · rw [if_pos hc] at h
      cases h
      exact hc.2
    · rw [if_neg hc] at h
      exact ih h

theorem lookupTable_updateList {sid tid : Int} {l : List (Int × TableInfo)}
    {tbl0 tblNew : TableInfo} (h : lookupTable sid tid l = some tbl0)
    (hid : tblNew.id = tid) :
    lookupTable sid tid (updateList sid tblNew l) = some tblNew := by
  induction l with
  | nil => simp [lookupTable] at h
  | cons e rest ih =>
    rw [lookupTable] at h
    rw [updateList]
    by_cases hc : e.1 = sid ∧ e.2.id = tid
    · rw [if_pos (by simpa [hid] using hc)]
      rw [lookupTable, if_pos (by simp [hid])]
    · rw [if_neg (by simpa [hid] using hc)]
      rw [if_neg hc] at h
      rw [lookupTable, if_neg hc]
      exact ih h

theorem lookupTable_removeTable (sid tid : Int) (l : List (Int × TableInfo)) :
    lookupTable sid tid (removeTable sid tid l) = Option.none := by
  induction l with
  | nil => simp [removeTable, lookupTable]
  | cons e rest ih =>
    rw [removeTable]
    by_cases hc : e.1 = sid ∧ e.2.id = tid
    · rw [if_pos hc]; exact ih
    · rw [if_neg hc, lookupTable, if_neg hc]; exact ih

theorem lookupTable_removeTable_ne {tid tid' : Int} (sid sid' : Int)
    (l : List (Int × TableInfo)) (hne : tid' ≠ tid) :
    lookupTable sid tid' (removeTable sid' tid l) = lookupTable sid tid' l := by
  induction l with
  | nil => simp [removeTable]
  | cons e rest ih =>
    rw [removeTable]
    by_cases hc : e.1 = sid' ∧ e.2.id = tid
    · rw [if_pos hc, lookupTable, if_neg (by rintro ⟨-, h2⟩; exact hne (h2 ▸ hc.2.symm ▸ rfl))]
      exact ih
    · rw [if_neg hc, lookupTable, lookupTable]
      by_cases hd : e.1 = sid ∧ e.2.id = tid'
      · rw [if_pos hd, if_pos hd]
      · rw [if_neg hd, if_neg hd]; exact ih

theorem lookupTable_append_of_none {sid tid : Int} {l : List (Int × TableInfo)}
    (m : List (Int × TableInfo)) (h : lookupTable sid tid l = Option.none) :
    lookupTable sid tid (l ++ m) = lookupTable sid tid m := by
  induction l with
  | nil => simp
  | cons e rest ih =>
    rw [lookupTable] at h
    by_cases hc : e.1 = sid ∧ e.2.id = tid
    · rw [if_pos hc] at h; cases h
    · rw [if_neg hc] at h
      rw [List.cons_append, lookupTable, if_neg hc]
      exact ih h

theorem getTableB_some {sid tid : Int} {s : MetaStore} {o : Option TableInfo}
    (h : getTableB sid tid s = some o) :
    sid ∈ s.schemas ∧ lookupTable sid tid s.tables = o := by
  rw [getTableB] at h
  by_cases hm : sid ∈ s.schemas
  · rw [if_pos hm] at h
    cases h
    exact ⟨hm, rfl⟩
  · rw [if_neg hm] at h; cases h

/-! ### Fault-free single-invocation characterizations -/

theorem dropStep_public {s : MetaStore} {job : Job} {tbl : TableInfo}
    (hget : getTableB job.schemaID job.tableID s = some (some tbl))
    (hst : tbl.state = SchemaState.public) :
    onDropTable s job [] =
      (updateTableP job.schemaID { tbl with state := SchemaState.writeOnly }
         { s with version := s.version + 1 },
       { job with schemaState := SchemaState.writeOnly }, Option.none) := by
  simp only [onDropTable, popFault, hget, hst]

theorem dropStep_writeOnly {s : MetaStore} {job : Job} {tbl : TableInfo}
    (hget : getTableB job.schemaID job.tableID s = some (some tbl))
    (hst : tbl.state = SchemaState.writeOnly) :
    onDropTable s job [] =
      (updateTableP job.schemaID { tbl with state := SchemaState.deleteOnly }
         { s with version := s.version + 1 },
       { job with schemaState := SchemaState.deleteOnly }, Option.none) := by
  simp only [onDropTable, popFault, hget, hst]

theorem dropStep_deleteOnly {s : MetaStore} {job : Job} {tbl : TableInfo}
    (hget : getTableB job.schemaID job.tableID s = some (some tbl))
    (hst : tbl.state = SchemaState.deleteOnly) :
    onDropTable s job [] =
      (addTableHistoryInfo
         (dropTableP job.schemaID job.tableID
           (updateTableP job.schemaID { tbl with state := SchemaState.none }
             { s with version := s.version + 1 }))
         (s.version + 1) job.id { tbl with state := SchemaState.none },
       { job with state := JobState.done, schemaState := SchemaState.none },
       Option.none) := by
  simp only [onDropTable, popFault, hget, hst, Bool.false_eq_true, if_false]

theorem createStep_publicExisting {s : MetaStore} {job : Job} {tb0 tblE : TableInfo}
    {tables : List TableInfo}
    (hargs : job.args = JobArgs.createArgs tb0)
    (hlist : listTablesB job.schemaID s = some tables)
    (hscan : createNameScan { tb0 with state := SchemaState.none } tables = Except.ok tblE)
    (hst : tblE.state = SchemaState.public) :
    onCreateTable s job [] =
      ({ s with version := s.version + 1 }, job, some DDLErr.invalidTableState) := by
  simp only [onCreateTable, hargs, decodeCreateArgs, popFault, hlist, hscan, hst]

theorem createStep_noneState {s : MetaStore} {job : Job} {tb0 tblE : TableInfo}
    {tables : List TableInfo}
    (hargs : job.args = JobArgs.createArgs tb0)
    (hlist : listTablesB job.schemaID s = some tables)
    (hscan : createNameScan { tb0 with state := SchemaState.none } tables = Except.ok tblE)
    (hst : tblE.state = SchemaState.none) :
    onCreateTable s job [] =
      (addTableHistoryInfo
         (createTableP job.schemaID { tblE with state := SchemaState.public }
           { s with version := s.version + 1 })
         (s.version + 1) job.id { tblE with state := SchemaState.public },
       { job with schemaState := SchemaState.public, state := JobState.done },
       Option.none) := by
  simp only [onCreateTable, hargs, decodeCreateArgs, popFault, hlist, hscan, hst]

theorem createStep_collision {s : MetaStore} {job : Job} {tb0 : TableInfo}
    {tables : List TableInfo}
    (hargs : job.args = JobArgs.createArgs tb0)
    (hlist : listTablesB job.schemaID s = some tables)
    (hscan : createNameScan { tb0 with state := SchemaState.none } tables = Except.error ()) :
    onCreateTable s job [] =
      (s, { job with state := JobState.cancelled }, some DDLErr.tableExists) := by
  simp only [onCreateTable, hargs, decodeCreateArgs, popFault, hlist, hscan]

theorem truncStep {s : MetaStore} {job : Job} {tbl : TableInfo} {newID : Int}
    (hargs : job.args = JobArgs.truncArgs newID)
    (hget : getTableB job.schemaID job.tableID s = some (some tbl)) :
    onTruncateTable s job [] =
      (addTableHistoryInfo
         { createTableP job.schemaID { tbl with id := newID }
             (dropTableP job.schemaID job.tableID s) with version := s.version + 1 }
         (s.version + 1) job.id { tbl with id := newID },
       { job with state := JobState.done }, Option.none) := by
  simp only [onTruncateTable, hargs, decodeTruncArgs, popFault, hget]

/-! ### Name-scan lemmas -/

theorem createNameScan_no_match {acc : TableInfo} {tables : List TableInfo}
    (h : ∀ tbl ∈ tables, tbl.nameL ≠ acc.nameL) :
    createNameScan acc tables = Except.ok acc := by
  induction tables with
  | nil => rfl
  | cons tbl rest ih =>
    rw [createNameScan, if_neg (h tbl (List.mem_cons_self tbl rest))]
    exact ih (fun t ht => h t (List.mem_cons_of_mem tbl ht))

theorem createNameScan_collision {acc : TableInfo} {tables : List TableInfo}
    (hex : ∃ tbl ∈ tables, tbl.nameL = acc.nameL)
    (hall : ∀ tbl ∈ tables, tbl.nameL = acc.nameL → tbl.id ≠ acc.id) :
    createNameScan acc tables = Except.error () := by
  induction tables generalizing acc with
  | nil => obtain ⟨t, ht, -⟩ := hex; cases ht
  | cons tbl rest ih =>
    rw [createNameScan]
    by_cases hn : tbl.nameL = acc.nameL
    · rw [if_pos hn,
        if_neg (hall tbl (List.mem_cons_self tbl rest) hn)]
    · rw [if_neg hn]
      obtain ⟨t, ht, hteq⟩ := hex
      rcases List.mem_cons.1 ht with rfl | ht'
      · exact absurd hteq hn
      · exact ih ⟨t, ht', hteq⟩ (fun u hu he => hall u (List.mem_cons_of_mem tbl hu) he)

theorem createNameScan_resume {tblE : TableInfo} {tables : List TableInfo} {acc : TableInfo}
    (hname : acc.nameL = tblE.nameL) (hid : acc.id = tblE.id)
    (hmem : tblE ∈ tables)
    (huniq : ∀ tbl ∈ tables, tbl.nameL = tblE.nameL → tbl = tblE) :
    createNameScan acc tables = Except.ok tblE := by
  induction tables generalizing acc with
  | nil => cases hmem
  | cons tbl rest ih =>
    rw [createNameScan]
    by_cases hn : tbl.nameL = acc.nameL
    · have htbl : tbl = tblE :=
        huniq tbl (List.mem_cons_self tbl rest) (hn.trans hname)
      rw [if_pos hn, if_pos (by rw [htbl, hid])]
      subst htbl
      by_cases hrest : tbl ∈ rest
      · exact ih rfl rfl hrest (fun u hu he => huniq u (List.mem_cons_of_mem tbl hu) he)
      · exact createNameScan_no_match
          (fun u hu he => hrest (by
            have := huniq u (List.mem_cons_of_mem tbl hu) (by rw [he])
            exact this ▸ hu))
    · rw [if_neg hn]
      rcases List.mem_cons.1 hmem with rfl | hmem'
      · exact absurd hname (by simpa using fun h => hn h.symm)
      · exact ih hname hid hmem' (fun u hu he => huniq u (List.mem_cons_of_mem tbl hu) he)

/-! ### Concrete fixtures used by witnesses and counterexamples -/

/-- A Public table descriptor with identifier 10 and name "t". -/
def tblPub : TableInfo :=
  { id := 10, nameL := "t", nameO := "t", cols := ["c"], state := SchemaState.public }

/-- A store holding schema 5 with the single Public table `tblPub`. -/
def storePub : MetaStore :=
  { schemas := [5], tables := [(5, tblPub)], version := 7, history := [] }

/-- A running drop job targeting table 10 of schema 5. -/
def jobDrop : Job :=
  { id := 1, schemaID := 5, tableID := 10, args := JobArgs.truncArgs 0,
    state := JobState.running, schemaState := SchemaState.public }

/-! ### Claim C1 -/

/-- Claim C1: dropping a table whose descriptor is Public takes exactly three
successful invocations of `onDropTable`; the externally observable
visibility sequence is Public (before any invocation), then WriteOnly, then
DeleteOnly, then absent from the store; the job outcome is Running after the
first two invocations and Done after the third; and, because each invocation
branches only on the persisted descriptor state, re-invocation after a crash
resumes from the persisted state — the last two conjuncts state the
WriteOnly and DeleteOnly single steps for an arbitrary persisted store. -/
theorem dropTable_three_invocations
    (s : MetaStore) (job : Job) (tbl : TableInfo)
    (hget : getTableB job.schemaID job.tableID s = some (some tbl))
    (hpub : tbl.state = SchemaState.public)
    (hrun : job.state = JobState.running) :
    ((onDropTable s job []).2.2 = Option.none ∧
     (onDropTable s job []).2.1.state = JobState.running ∧
     (onDropTable s job []).2.1.schemaState = SchemaState.writeOnly ∧
     getTableB job.schemaID job.tableID (onDropTable s job []).1
       = some (some { tbl with state := SchemaState.writeOnly }) ∧
     (onDropTable (onDropTable s job []).1 (onDropTable s job []).2.1 []).2.2
       = Option.none ∧
     (onDropTable (onDropTable s job []).1 (onDropTable s job []).2.1 []).2.1.state
       = JobState.running ∧
     getTableB job.schemaID job.tableID
         (onDropTable (onDropTable s job []).1 (onDropTable s job []).2.1 []).1
       = some (some { tbl with state := SchemaState.deleteOnly })) ∧
    (∀ s1 j1 t1, getTableB j1.schemaID j1.tableID s1 = some (some t1) →
      t1.state = SchemaState.writeOnly → j1.state = JobState.running →
      (onDropTable s1 j1 []).2.2 = Option.none ∧
      (onDropTable s1 j1 []).2.1.state = JobState.running ∧
      getTableB j1.schemaID j1.tableID (onDropTable s1 j1 []).1
        = some (some { t1 with state := SchemaState.deleteOnly })) ∧
    (∀ s2 j2 t2, getTableB j2.schemaID j2.tableID s2 = some (some t2) →
      t2.state = SchemaState.deleteOnly →
      (onDropTable s2 j2 []).2.2 = Option.none ∧
      (onDropTable s2 j2 []).2.1.state = JobState.done ∧
      getTableB j2.schemaID j2.tableID (onDropTable s2 j2 []).1
        = some Option.none) := by
  have stepW : ∀ s1 j1 t1, getTableB j1.schemaID j1.tableID s1 = some (some t1) →
      t1.state = SchemaState.writeOnly → j1.state = JobState.running →
      (onDropTable s1 j1 []).2.2 = Option.none ∧
      (onDropTable s1 j1 []).2.1.state = JobState.running ∧
      getTableB j1.schemaID j1.tableID (onDropTable s1 j1 []).1
        = some (some { t1 with state := SchemaState.deleteOnly }) := by
    intro s1 j1 t1 hget1 hst1 hrun1
    obtain ⟨hm1, hlk1⟩ := getTableB_some hget1
    have hid1 : t1.id = j1.tableID := lookupTable_id hlk1
    rw [dropStep_writeOnly hget1 hst1]
    refine ⟨rfl, by simp [hrun1], ?_⟩
    rw [getTableB]
    rw [if_pos (by simpa [updateTableP] using hm1)]
    simp only [updateTableP]
    rw [lookupTable_updateList (l := ({ s1 with version := s1.version + 1 } : MetaStore).tables)
      (by simpa using hlk1) (by simpa using hid1)]
  have stepD : ∀ s2 j2 t2, getTableB j2.schemaID j2.tableID s2 = some (some t2) →
      t2.state = SchemaState.deleteOnly →
      (onDropTable s2 j2 []).2.2 = Option.none ∧
      (onDropTable s2 j2 []).2.1.state = JobState.done ∧
      getTableB j2.schemaID j2.tableID (onDropTable s2 j2 []).1
        = some Option.none := by
    intro s2 j2 t2 hget2 hst2
    obtain ⟨hm2, -⟩ := getTableB_some hget2
    rw [dropStep_deleteOnly hget2 hst2]
    refine ⟨rfl, rfl, ?_⟩
    rw [getTableB]
    rw [if_pos (by simpa [addTableHistoryInfo, dropTableP, updateTableP] using hm2)]
    simp only [addTableHistoryInfo, dropTableP, updateTableP]
    rw [lookupTable_removeTable]
  refine ⟨?_, stepW, stepD⟩
  obtain ⟨hm, hlk⟩ := getTableB_some hget
  have hid : tbl.id = job.tableID := lookupTable_id hlk
  have h1 := dropStep_public hget hpub
  have hget1 : getTableB job.schemaID job.tableID (onDropTable s job []).1
      = some (some { tbl with state := SchemaState.writeOnly }) := by
    rw [h1, getTableB]
    rw [if_pos (by simpa [updateTableP] using hm)]
    simp only [updateTableP]
    rw [lookupTable_updateList (l := ({ s with version := s.version + 1 } : MetaStore).tables)
      (by simpa using hlk) (by simpa using hid)]
  have hget1' : getTableB (onDropTable s job []).2.1.schemaID
      (onDropTable s job []).2.1.tableID (onDropTable s job []).1
      = some (some { tbl with state := SchemaState.writeOnly }) := by
    rw [h1] at hget1 ⊢
    exact hget1
  have h2 := stepW (onDropTable s job []).1 (onDropTable s job []).2.1
    { tbl with state := SchemaState.writeOnly } hget1' rfl (by rw [h1]; simpa using hrun)
  refine ⟨by rw [h1], by rw [h1]; simpa using hrun, by rw [h1], hget1, h2.1, h2.2.1, ?_⟩
  have := h2.2.2
  rw [h1] at this ⊢
  simpa using this

theorem listTablesB_some {sid : Int} {s : MetaStore} {tables : List TableInfo}
    (h : listTablesB sid s = some tables) : sid ∈ s.schemas := by
  rw [listTablesB] at h
  by_cases hm : sid ∈ s.schemas
  · exact hm
  · rw [if_neg hm] at h; cases h

theorem createStep_invalidState {s : MetaStore} {job : Job} {tb0 tblE : TableInfo}
    {tables : List TableInfo}
    (hargs : job.args = JobArgs.createArgs tb0)
    (hlist : listTablesB job.schemaID s = some tables)
    (hscan : createNameScan { tb0 with state := SchemaState.none } tables = Except.ok tblE)
    (hst : tblE.state ≠ SchemaState.none) :
    onCreateTable s job [] =
      ({ s with version := s.version + 1 }, job, some DDLErr.invalidTableState) := by
  cases h : tblE.state with
  | none => exact absurd h hst
  | public => simp only [onCreateTable, hargs, decodeCreateArgs, popFault, hlist, hscan, h]
  | writeOnly => simp only [onCreateTable, hargs, decodeCreateArgs, popFault, hlist, hscan, h]
  | deleteOnly => simp only [onCreateTable, hargs, decodeCreateArgs, popFault, hlist, hscan, h]

/-- Witness for Claim C1 at a concrete store: schema 5 holding the Public
table 10, a running drop job; the hypotheses hold and the first-block
conclusion follows by applying the claim theorem. -/
theorem dropTable_three_invocations_witness :
    getTableB jobDrop.schemaID jobDrop.tableID storePub = some (some tblPub) ∧
    tblPub.state = SchemaState.public ∧
    jobDrop.state = JobState.running ∧
    ((onDropTable storePub jobDrop []).2.2 = Option.none ∧
     (onDropTable storePub jobDrop []).2.1.state = JobState.running ∧
     (onDropTable storePub jobDrop []).2.1.schemaState = SchemaState.writeOnly ∧
     getTableB jobDrop.schemaID jobDrop.tableID (onDropTable storePub jobDrop []).1
       = some (some { tblPub with state := SchemaState.writeOnly }) ∧
     (onDropTable (onDropTable storePub jobDrop []).1
        (onDropTable storePub jobDrop []).2.1 []).2.2 = Option.none ∧
     (onDropTable (onDropTable storePub jobDrop []).1
        (onDropTable storePub jobDrop []).2.1 []).2.1.state = JobState.running ∧
     getTableB jobDrop.schemaID jobDrop.tableID
         (onDropTable (onDropTable storePub jobDrop []).1
           (onDropTable storePub jobDrop []).2.1 []).1
       = some (some { tblPub with state := SchemaState.deleteOnly })) :=
  ⟨by decide, rfl, rfl,
   (dropTable_three_invocations storePub jobDrop tblPub (by decide) rfl rfl).1⟩

/-! ### Claim C2 -/

/-- A resubmitted create job: same descriptor name and identifier as the
Public table already persisted in `storePub`. -/
def jobCreateDup : Job :=
  { id := 2, schemaID := 5, tableID := 10, args := JobArgs.createArgs tblPub,
    state := JobState.running, schemaState := SchemaState.none }

/-- Claim C2 counterexample: a create job resubmitted with the name and
identifier of the existing Public table 10 is not treated as already done —
`onCreateTable` returns an invalid-state error and leaves the outcome
Running, contradicting "completes with outcome Done and no error ... in
particular when the existing table's state is already Public". -/
theorem createTable_resubmit_counterexample :
    (onCreateTable storePub jobCreateDup []).2.2 = some DDLErr.invalidTableState ∧
    (onCreateTable storePub jobCreateDup []).2.1.state = JobState.running ∧
    ¬ ((onCreateTable storePub jobCreateDup []).2.2 = Option.none ∧
       (onCreateTable storePub jobCreateDup []).2.1.state = JobState.done) := by
  decide

/-- Claim C2 amended: a create job whose descriptor matches an existing
table's name and identifier is never cancelled with a table-exists error; it
is treated as a resumption and completes with outcome Done, no error and
exactly one appended history entry only when the existing descriptor's state
is None; when the existing descriptor's state is already Public the handler
instead returns an invalid-state error, leaves the job outcome unchanged
(neither Done nor Cancelled) and appends no history entry. -/
theorem createTable_resubmit_amended
    (s : MetaStore) (job : Job) (tb0 tblE : TableInfo) (tables : List TableInfo)
    (hargs : job.args = JobArgs.createArgs tb0)
    (hlist : listTablesB job.schemaID s = some tables)
    (hmem : tblE ∈ tables)
    (hname : tblE.nameL = tb0.nameL) (hid : tblE.id = tb0.id)
    (huniq : ∀ tbl ∈ tables, tbl.nameL = tb0.nameL → tbl = tblE) :
    (onCreateTable s job []).2.2 ≠ some DDLErr.tableExists ∧
    (tblE.state = SchemaState.none →
      (onCreateTable s job []).2.2 = Option.none ∧
      (onCreateTable s job []).2.1.state = JobState.done ∧
      (onCreateTable s job []).1.history
        = s.history ++ [{ ver := s.version + 1, jobID := job.id,
                          tbl := { tblE with state := SchemaState.public } }]) ∧
    (tblE.state = SchemaState.public →
      (onCreateTable s job []).2.2 = some DDLErr.invalidTableState ∧
      (onCreateTable s job []).2.1.state = job.state ∧
      (onCreateTable s job []).1.history = s.history) := by
  have hscan : createNameScan { tb0 with state := SchemaState.none } tables
      = Except.ok tblE :=
    createNameScan_resume (by simpa using hname.symm) (by simpa using hid.symm) hmem
      (fun tbl ht he => huniq tbl ht (he.trans hname))
  refine ⟨?_, ?_, ?_⟩
  · by_cases hst : tblE.state = SchemaState.none
    · rw [createStep_noneState hargs hlist hscan hst]; simp
    · rw [createStep_invalidState hargs hlist hscan hst]; simp
  · intro hst
    rw [createStep_noneState hargs hlist hscan hst]
    exact ⟨rfl, rfl, by simp [addTableHistoryInfo, createTableP]⟩
  · intro hst
    rw [createStep_invalidState hargs hlist hscan (by rw [hst]; intro h; cases h)]
    exact ⟨rfl, rfl, rfl⟩

/-- Witness for Claim C2's amended theorem at the concrete resubmission
scenario (existing Public table 10): the hypotheses hold, the job is not
cancelled with table-exists, and the Public branch of the amended claim is
realized. -/
theorem createTable_resubmit_amended_witness :
    listTablesB jobCreateDup.schemaID storePub = some [tblPub] ∧
    tblPub ∈ [tblPub] ∧ tblPub.state = SchemaState.public ∧
    (onCreateTable storePub jobCreateDup []).2.2 ≠ some DDLErr.tableExists ∧
    (onCreateTable storePub jobCreateDup []).2.2 = some DDLErr.invalidTableState ∧
    (onCreateTable storePub jobCreateDup []).2.1.state = jobCreateDup.state ∧
    (onCreateTable storePub jobCreateDup []).1.history = storePub.history :=
  have h := createTable_resubmit_amended storePub jobCreateDup tblPub tblPub [tblPub]
    rfl (by decide) (by decide) rfl rfl (by decide)
  ⟨by decide, by decide, rfl, h.1, (h.2.2 rfl).1, (h.2.2 rfl).2.1, (h.2.2 rfl).2.2⟩

/-! ### Claim C3 -/

/-- Claim C3 counterexample: the first drop invocation on a Public table is a
committed structural mutation (no error) that increments the version, yet
appends no history entry — version bumps and history appends are not in
one-to-one correspondence. -/
theorem version_history_counterexample :
    (onDropTable storePub jobDrop []).2.2 = Option.none ∧
    (onDropTable storePub jobDrop []).1.version = storePub.version + 1 ∧
    (onDropTable storePub jobDrop []).1.history = storePub.history := by
  decide

/-- Claim C3 amended: every committed (error-free) structural mutation
increments the schema version exactly once, but a history entry is appended
exactly when the invocation completes the job: the intermediate drop
transitions (Public to WriteOnly, WriteOnly to DeleteOnly) bump the version
and append nothing, while the final drop removal, a completing create and a
completing truncate each bump the version and append exactly one entry. -/
theorem version_history_amended (s : MetaStore) (job : Job) :
    (∀ tbl, getTableB job.schemaID job.tableID s = some (some tbl) →
      ((tbl.state = SchemaState.public ∨ tbl.state = SchemaState.writeOnly) →
        (onDropTable s job []).2.2 = Option.none ∧
        (onDropTable s job []).1.version = s.version + 1 ∧
        (onDropTable s job []).1.history = s.history ∧
        (onDropTable s job []).2.1.state = job.state) ∧
      (tbl.state = SchemaState.deleteOnly →
        (onDropTable s job []).2.2 = Option.none ∧
        (onDropTable s job []).1.version = s.version + 1 ∧
        (onDropTable s job []).1.history
          = s.history ++ [{ ver := s.version + 1, jobID := job.id,
                            tbl := { tbl with state := SchemaState.none } }] ∧
        (onDropTable s job []).2.1.state = JobState.done)) ∧
    (∀ tb0 tables, job.args = JobArgs.createArgs tb0 →
      listTablesB job.schemaID s = some tables →
      (∀ tbl ∈ tables, tbl.nameL ≠ tb0.nameL) →
      (onCreateTable s job []).2.2 = Option.none ∧
      (onCreateTable s job []).1.version = s.version + 1 ∧
      (onCreateTable s job []).1.history
        = s.history ++ [{ ver := s.version + 1, jobID := job.id,
                          tbl := { tb0 with state := SchemaState.public } }] ∧
      (onCreateTable s job []).2.1.state = JobState.done) ∧
    (∀ newID tbl, job.args = JobArgs.truncArgs newID →
      getTableB job.schemaID job.tableID s = some (some tbl) →
      (onTruncateTable s job []).2.2 = Option.none ∧
      (onTruncateTable s job []).1.version = s.version + 1 ∧
      (onTruncateTable s job []).1.history
        = s.history ++ [{ ver := s.version + 1, jobID := job.id,
                          tbl := { tbl with id := newID } }] ∧
      (onTruncateTable s job []).2.1.state = JobState.done) := by
  refine ⟨?_, ?_, ?_⟩
  · intro tbl hget
    constructor
    · rintro (hst | hst)
      · rw [dropStep_public hget hst]
        exact ⟨rfl, rfl, rfl, rfl⟩
      · rw [dropStep_writeOnly hget hst]
        exact ⟨rfl, rfl, rfl, rfl⟩
    · intro hst
      rw [dropStep_deleteOnly hget hst]
      exact ⟨rfl, rfl, by simp [addTableHistoryInfo, dropTableP, updateTableP], rfl⟩
  · intro tb0 tables hargs hlist hnoconf
    have hscan : createNameScan { tb0 with state := SchemaState.none } tables
        = Except.ok { tb0 with state := SchemaState.none } :=
      createNameScan_no_match (by simpa using hnoconf)
    rw [createStep_noneState hargs hlist hscan rfl]
    exact ⟨rfl, rfl, by simp [addTableHistoryInfo, createTableP], rfl⟩
  · intro newID tbl hargs hget
    rw [truncStep hargs hget]
    exact ⟨rfl, rfl, by simp [addTableHistoryInfo, createTableP, dropTableP], rfl⟩

/-- The deleteOnly variant of table 10, and a store holding it. -/
def tblDel : TableInfo := { tblPub with state := SchemaState.deleteOnly }

/-- Store holding schema 5 with table 10 in state DeleteOnly. -/
def storeDel : MetaStore :=
  { schemas := [5], tables := [(5, tblDel)], version := 3, history := [] }

/-- Witness for Claim C3's amended theorem: the final drop invocation on the
DeleteOnly table bumps the version once and appends exactly one history
entry while completing the job. -/
theorem version_history_amended_witness :
    getTableB jobDrop.schemaID jobDrop.tableID storeDel = some (some tblDel) ∧
    tblDel.state = SchemaState.deleteOnly ∧
    ((onDropTable storeDel jobDrop []).2.2 = Option.none ∧
     (onDropTable storeDel jobDrop []).1.version = storeDel.version + 1 ∧
     (onDropTable storeDel jobDrop []).1.history
       = storeDel.history ++ [{ ver := storeDel.version + 1, jobID := jobDrop.id,
                                tbl := { tblDel with state := SchemaState.none } }] ∧
     (onDropTable storeDel jobDrop []).2.1.state = JobState.done) :=
  ⟨by decide, rfl,
   ((version_history_amended storeDel jobDrop).1 tblDel (by decide)).2 rfl⟩

/-! ### Claim C4 -/

/-- Claim C4: a create job into a schema with no conflicting table completes
with outcome Done and no error; the persisted descriptor is Public, the
schema version is incremented by exactly 1, exactly one history entry is
appended, and the job's visibility sub-state is set to Public. -/
theorem createTable_success_postconditions
    (s : MetaStore) (job : Job) (tb0 : TableInfo) (tables : List TableInfo)
    (hargs : job.args = JobArgs.createArgs tb0)
    (hlist : listTablesB job.schemaID s = some tables)
    (hnoconf : ∀ tbl ∈ tables, tbl.nameL ≠ tb0.nameL) :
    (onCreateTable s job []).2.2 = Option.none ∧
    (onCreateTable s job []).2.1.state = JobState.done ∧
    (onCreateTable s job []).2.1.schemaState = SchemaState.public ∧
    getTableB job.schemaID tb0.id (onCreateTable s job []).1
      = some (some { tb0 with state := SchemaState.public }) ∧
    (onCreateTable s job []).1.version = s.version + 1 ∧
    (onCreateTable s job []).1.history
      = s.history ++ [{ ver := s.version + 1, jobID := job.id,
                        tbl := { tb0 with state := SchemaState.public } }] := by
  have hscan : createNameScan { tb0 with state := SchemaState.none } tables
      = Except.ok { tb0 with state := SchemaState.none } :=
    createNameScan_no_match (by simpa using hnoconf)
  have hm : job.schemaID ∈ s.schemas := listTablesB_some hlist
  rw [createStep_noneState hargs hlist hscan rfl]
  refine ⟨rfl, rfl, rfl, ?_, rfl, by simp [addTableHistoryInfo, createTableP]⟩
  rw [getTableB]
  rw [if_pos (by simpa [addTableHistoryInfo, createTableP] using hm)]
  simp only [addTableHistoryInfo, createTableP]
  rw [lookupTable_append_of_none _ (by simpa using lookupTable_removeTable job.schemaID tb0.id _)]
  rw [lookupTable]
  simp

/-- An empty schema 5 to create into. -/
def storeEmpty : MetaStore := { schemas := [5], tables := [], version := 7, history := [] }

/-- Witness for Claim C4: creating table 10 in the empty schema 5 yields a
Public descriptor, one version bump and one history entry. -/
theorem createTable_success_postconditions_witness :
    listTablesB jobCreateDup.schemaID storeEmpty = some [] ∧
    ((onCreateTable storeEmpty jobCreateDup []).2.2 = Option.none ∧
     (onCreateTable storeEmpty jobCreateDup []).2.1.state = JobState.done ∧
     (onCreateTable storeEmpty jobCreateDup []).2.1.schemaState = SchemaState.public ∧
     getTableB jobCreateDup.schemaID tblPub.id (onCreateTable storeEmpty jobCreateDup []).1
       = some (some { tblPub with state := SchemaState.public }) ∧
     (onCreateTable storeEmpty jobCreateDup []).1.version = storeEmpty.version + 1 ∧
     (onCreateTable storeEmpty jobCreateDup []).1.history
       = storeEmpty.history ++ [{ ver := storeEmpty.version + 1, jobID := jobCreateDup.id,
                                  tbl := { tblPub with state := SchemaState.public } }]) :=
  ⟨by decide,
   createTable_success_postconditions storeEmpty jobCreateDup tblPub []
     rfl (by decide) (by decide)⟩

/-! ### Claim C5 -/

/-- Claim C5: a create job whose descriptor name collides with an existing
table of a different identifier is cancelled with a table-exists error, and
the whole store — catalog, version counter and history — is returned
unchanged. -/
theorem createTable_name_collision_cancel
    (s : MetaStore) (job : Job) (tb0 : TableInfo) (tables : List TableInfo)
    (hargs : job.args = JobArgs.createArgs tb0)
    (hlist : listTablesB job.schemaID s = some tables)
    (hex : ∃ tbl ∈ tables, tbl.nameL = tb0.nameL)
    (hall : ∀ tbl ∈ tables, tbl.nameL = tb0.nameL → tbl.id ≠ tb0.id) :
    (onCreateTable s job []).1 = s ∧
    (onCreateTable s job []).2.1.state = JobState.cancelled ∧
    (onCreateTable s job []).2.2 = some DDLErr.tableExists := by
  have hscan : createNameScan { tb0 with state := SchemaState.none } tables
      = Except.error () :=
    createNameScan_collision (by simpa using hex) (by simpa using hall)
  rw [createStep_collision hargs hlist hscan]
  exact ⟨rfl, rfl, rfl⟩

/-- A create job with the colliding name "t" but the different identifier
11. -/
def jobCreate11 : Job :=
  { id := 3, schemaID := 5, tableID := 11,
    args := JobArgs.createArgs { tblPub with id := 11 },
    state := JobState.running, schemaState := SchemaState.none }

/-- Witness for Claim C5: creating name "t" with identifier 11 against the
store owning Public table 10 named "t" is cancelled with table-exists and
the store is untouched. -/
theorem createTable_name_collision_cancel_witness :
    listTablesB jobCreate11.schemaID storePub = some [tblPub] ∧
    ((onCreateTable storePub jobCreate11 []).1 = storePub ∧
     (onCreateTable storePub jobCreate11 []).2.1.state = JobState.cancelled ∧
     (onCreateTable storePub jobCreate11 []).2.2 = some DDLErr.tableExists) :=
  ⟨by decide,
   createTable_name_collision_cancel storePub jobCreate11 { tblPub with id := 11 } [tblPub]
     rfl (by decide) ⟨tblPub, by decide, rfl⟩ (by decide)⟩

/-! ### Claim C6 -/

/-- The WriteOnly variant of table 10, and a store holding it. -/
def tblW : TableInfo := { tblPub with state := SchemaState.writeOnly }

/-- Store holding schema 5 with table 10 in state WriteOnly. -/
def storeW : MetaStore :=
  { schemas := [5], tables := [(5, tblW)], version := 1, history := [] }

/-- A truncate job whose decoded new identifier equals the old identifier
10. -/
def jobTruncSame : Job :=
  { id := 4, schemaID := 5, tableID := 10, args := JobArgs.truncArgs 10,
    state := JobState.running, schemaState := SchemaState.none }

/-- Claim C6 counterexample: truncating the WriteOnly table 10 with decoded
new identifier 10 completes with outcome Done, yet GetTable(5, 10) still
finds a descriptor (the claim says NotFound for the old identifier) and that
descriptor's visibility is WriteOnly, not Public. -/
theorem truncateTable_counterexample :
    (onTruncateTable storeW jobTruncSame []).2.2 = Option.none ∧
    (onTruncateTable storeW jobTruncSame []).2.1.state = JobState.done ∧
    getTableB 5 10 (onTruncateTable storeW jobTruncSame []).1 = some (some tblW) ∧
    tblW.state ≠ SchemaState.public := by
  decide

/-- Claim C6 amended: for a truncate job on an existing table whose state is
Public and whose decoded new identifier differs from the old identifier,
after the handler completes with outcome Done, GetTable on the old
identifier yields NotFound, GetTable on the new identifier yields a
descriptor with the original name, columns and Public visibility, and the
schema version is incremented by exactly 1. -/
theorem truncateTable_amended
    (s : MetaStore) (job : Job) (tbl : TableInfo) (newID : Int)
    (hargs : job.args = JobArgs.truncArgs newID)
    (hget : getTableB job.schemaID job.tableID s = some (some tbl))
    (hpub : tbl.state = SchemaState.public)
    (hne : newID ≠ job.tableID) :
    (onTruncateTable s job []).2.2 = Option.none ∧
    (onTruncateTable s job []).2.1.state = JobState.done ∧
    getTableB job.schemaID job.tableID (onTruncateTable s job []).1
      = some Option.none ∧
    getTableB job.schemaID newID (onTruncateTable s job []).1
      = some (some { tbl with id := newID }) ∧
    ({ tbl with id := newID }).nameL = tbl.nameL ∧
    ({ tbl with id := newID }).cols = tbl.cols ∧
    ({ tbl with id := newID }).state = SchemaState.public ∧
    (onTruncateTable s job []).1.version = s.version + 1 := by
  obtain ⟨hm, -⟩ := getTableB_some hget
  rw [truncStep hargs hget]
  refine ⟨rfl, rfl, ?_, ?_, rfl, rfl, by simpa using hpub, rfl⟩
  · rw [getTableB]
    rw [if_pos (by simpa [addTableHistoryInfo, createTableP, dropTableP] using hm)]
    simp only [addTableHistoryInfo, createTableP, dropTableP]
    rw [lookupTable_append_of_none _ (by
      rw [lookupTable_removeTable_ne job.schemaID job.schemaID _ (Ne.symm hne)]
      exact lookupTable_removeTable job.schemaID job.tableID s.tables)]
    rw [lookupTable]
    simp [hne, lookupTable]
  · rw [getTableB]
    rw [if_pos (by simpa [addTableHistoryInfo, createTableP, dropTableP] using hm)]
    simp only [addTableHistoryInfo, createTableP, dropTableP]
    rw [lookupTable_append_of_none _ (by
      simpa using lookupTable_removeTable job.schemaID newID _)]
    rw [lookupTable]
    simp

/-- A truncate job carrying the fresh identifier 20 for table 10. -/
def jobTrunc20 : Job :=
  { id := 5, schemaID := 5, tableID := 10, args := JobArgs.truncArgs 20,
    state := JobState.running, schemaState := SchemaState.none }

/-- Witness for Claim C6's amended theorem: truncating the Public table 10
into identifier 20. -/
theorem truncateTable_amended_witness :
    getTableB jobTrunc20.schemaID jobTrunc20.tableID storePub = some (some tblPub) ∧
    tblPub.state = SchemaState.public ∧ (20 : Int) ≠ jobTrunc20.tableID ∧
    ((onTruncateTable storePub jobTrunc20 []).2.2 = Option.none ∧
     (onTruncateTable storePub jobTrunc20 []).2.1.state = JobState.done ∧
     getTableB jobTrunc20.schemaID jobTrunc20.tableID (onTruncateTable storePub jobTrunc20 []).1
       = some Option.none ∧
     getTableB jobTrunc20.schemaID 20 (onTruncateTable storePub jobTrunc20 []).1
       = some (some { tblPub with id := 20 })) :=
  have h := truncateTable_amended storePub jobTrunc20 tblPub 20 rfl (by decide) rfl (by decide)
  ⟨by decide, rfl, by decide, h.1, h.2.1, h.2.2.1, h.2.2.2.1⟩

/-! ### Claim C7 -/

/-- A running background reclamation job. -/
def jobReorg : Job :=
  { id := 6, schemaID := 5, tableID := 10, args := JobArgs.truncArgs 0,
    state := JobState.running, schemaState := SchemaState.deleteOnly }

/-- The reclamation job after completion: sub-state reset, outcome Done. -/
def jobReorgDone : Job :=
  { jobReorg with state := JobState.done, schemaState := SchemaState.none }

/-- Claim C7: one reclamation invocation deletes at most `L` rows; when it
deletes exactly `L` the job is returned unchanged (still Running); when it
deletes fewer than `L` (including zero) the sub-state is reset to None and
the outcome set to Done; and with L = 100 over 250 rows the outcomes across
invocations are Running, Running, Done (deleting 100, 100, 50), a fourth
invocation deleting nothing and remaining Done. -/
theorem delReorgTable_batch_behavior (L n : Nat) (job : Job)
    (hrun : job.state = JobState.running) :
    (dropTableData n L).1 ≤ L ∧
    ((dropTableData n L).1 = L →
      delReorgTable L n job = (n - L, job, Option.none) ∧
      (delReorgTable L n job).2.1.state = JobState.running) ∧
    ((dropTableData n L).1 < L →
      (delReorgTable L n job).2.1.state = JobState.done ∧
      (delReorgTable L n job).2.1.schemaState = SchemaState.none ∧
      (delReorgTable L n job).2.2 = Option.none) ∧
    delReorgTable 100 250 jobReorg = (150, jobReorg, Option.none) ∧
    delReorgTable 100 150 jobReorg = (50, jobReorg, Option.none) ∧
    delReorgTable 100 50 jobReorg = (0, jobReorgDone, Option.none) ∧
    delReorgTable 100 0 jobReorgDone = (0, jobReorgDone, Option.none) := by
  refine ⟨Nat.min_le_right n L, ?_, ?_, by decide, by decide, by decide, by decide⟩
  · intro heq
    have hmin : min n L = L := heq
    simp only [delReorgTable, dropTableData, hmin]
    rw [if_neg (lt_irrefl L)]
    exact ⟨rfl, by simpa using hrun⟩
  · intro hlt
    have hlt' : min n L < L := hlt
    simp only [delReorgTable, dropTableData]
    rw [if_pos hlt']
    exact ⟨rfl, rfl, rfl⟩

/-- Witness for Claim C7 at L = 100, n = 250 with the running reclamation
job. -/
theorem delReorgTable_batch_behavior_witness :
    jobReorg.state = JobState.running ∧
    (dropTableData 250 100).1 ≤ 100 ∧
    delReorgTable 100 250 jobReorg = (150, jobReorg, Option.none) ∧
    delReorgTable 100 50 jobReorg = (0, jobReorgDone, Option.none) :=
  have h := delReorgTable_batch_behavior 100 250 jobReorg rfl
  ⟨rfl, h.1, h.2.2.2.1, h.2.2.2.2.2.1⟩

/-! ### Claim C9 -/

/-- Claim C9: `getTableInfo` returns the descriptor without error exactly
when it exists and its visibility is Public; a missing schema or table
cancels the job with the corresponding not-found error, and any non-Public
state cancels the job with an invalid-state error. -/
theorem getTableInfo_public_only (s : MetaStore) (job : Job) :
    ((getTableInfo s job []).2.2 = Option.none ↔
      ∃ tbl, getTableB job.schemaID job.tableID s = some (some tbl) ∧
        tbl.state = SchemaState.public ∧ (getTableInfo s job []).1 = some tbl) ∧
    (getTableB job.schemaID job.tableID s = Option.none →
      (getTableInfo s job []).2.1.state = JobState.cancelled ∧
      (getTableInfo s job []).2.2 = some DDLErr.dbNotExists) ∧
    (getTableB job.schemaID job.tableID s = some Option.none →
      (getTableInfo s job []).2.1.state = JobState.cancelled ∧
      (getTableInfo s job []).2.2 = some DDLErr.tableNotExists) ∧
    (∀ tbl, getTableB job.schemaID job.tableID s = some (some tbl) →
      tbl.state ≠ SchemaState.public →
      (getTableInfo s job []).2.1.state = JobState.cancelled ∧
      (getTableInfo s job []).2.2 = some DDLErr.invalidTableState) := by
  cases hget : getTableB job.schemaID job.tableID s with
  | none => simp [getTableInfo, popFault, hget]
  | some o =>
    cases o with
    | none => simp [getTableInfo, popFault, hget]
    | some tbl =>
      by_cases hst : tbl.state = SchemaState.public
      · simp [getTableInfo, popFault, hget, hst]
      · simp [getTableInfo, popFault, hget, hst]

/-- Witness for Claim C9 at the WriteOnly store: the accessor cancels the
job with an invalid-state error. -/
theorem getTableInfo_public_only_witness :
    getTableB jobDrop.schemaID jobDrop.tableID storeW = some (some tblW) ∧
    tblW.state ≠ SchemaState.public ∧
    ((getTableInfo storeW jobDrop []).2.1.state = JobState.cancelled ∧
     (getTableInfo storeW jobDrop []).2.2 = some DDLErr.invalidTableState) :=
  ⟨by decide, by decide,
   (getTableInfo_public_only storeW jobDrop).2.2.2 tblW (by decide) (by decide)⟩

/-! ### Claim C10 -/

/-- Claim C10: the truncate handler checks no visibility state — for every
state of the existing descriptor it completes with outcome Done and no
invalid-state error, and the descriptor re-inserted under the new identifier
is identical to the old descriptor in every field, including its visibility
state, except the identifier. -/
theorem truncateTable_no_state_check
    (s : MetaStore) (job : Job) (tbl : TableInfo) (newID : Int)
    (hargs : job.args = JobArgs.truncArgs newID)
    (hget : getTableB job.schemaID job.tableID s = some (some tbl)) :
    (onTruncateTable s job []).2.2 = Option.none ∧
    (onTruncateTable s job []).2.1.state = JobState.done ∧
    getTableB job.schemaID newID (onTruncateTable s job []).1
      = some (some { tbl with id := newID }) := by
  obtain ⟨hm, -⟩ := getTableB_some hget
  rw [truncStep hargs hget]
  refine ⟨rfl, rfl, ?_⟩
  rw [getTableB]
  rw [if_pos (by simpa [addTableHistoryInfo, createTableP, dropTableP] using hm)]
  simp only [addTableHistoryInfo, createTableP, dropTableP]
  rw [lookupTable_append_of_none _ (by
    simpa using lookupTable_removeTable job.schemaID newID _)]
  rw [lookupTable]
  simp

/-- Witness for Claim C10: truncating the WriteOnly table 10 into identifier
20 proceeds without an invalid-state error and re-inserts the descriptor
with its WriteOnly state intact. -/
theorem truncateTable_no_state_check_witness :
    getTableB jobTrunc20.schemaID jobTrunc20.tableID storeW = some (some tblW) ∧
    ((onTruncateTable storeW jobTrunc20 []).2.2 = Option.none ∧
     (onTruncateTable storeW jobTrunc20 []).2.1.state = JobState.done ∧
     getTableB jobTrunc20.schemaID 20 (onTruncateTable storeW jobTrunc20 []).1
       = some (some { tblW with id := 20 })) :=
  ⟨by decide, truncateTable_no_state_check storeW jobTrunc20 tblW 20 rfl (by decide)⟩

/-! ### Claim C8 -/

/-- Claim C8 counterexample: a transient store failure at the truncate
handler's DropTable call (fault oracle `[false, true]`: GetTable succeeds,
the next round trip fails) sets the job outcome to Cancelled — contradicting
"a store failure during the truncate handler's DropTable or CreateTable call
does not set the job to Cancelled". -/
theorem transient_error_counterexample :
    (onTruncateTable storePub jobTrunc20 [false, true]).2.2 = some DDLErr.transient ∧
    (onTruncateTable storePub jobTrunc20 [false, true]).2.1.state = JobState.cancelled := by
  decide

/-- Claim C8 amended: a transient store failure surfaces the error and
leaves the job's outcome state unchanged for every store round trip of the
create handler, the drop handler and the runtime-handle accessor, and for
the truncate handler's GetTable and version-update round trips — but a
transient failure of the truncate handler's DropTable call (second round
trip) or CreateTable call (third round trip) sets the job outcome to
Cancelled. -/
theorem transient_error_amended (s : MetaStore) (job : Job) (faults : List Bool) :
    ((onCreateTable s job faults).2.2 = some DDLErr.transient →
      (onCreateTable s job faults).2.1.state = job.state) ∧
    ((onDropTable s job faults).2.2 = some DDLErr.transient →
      (onDropTable s job faults).2.1.state = job.state) ∧
    ((getTableInfo s job faults).2.2 = some DDLErr.transient →
      (getTableInfo s job faults).2.1.state = job.state) ∧
    ((onTruncateTable s job [true]).2.2 = some DDLErr.transient →
      (onTruncateTable s job [true]).2.1.state = job.state) ∧
    ((onTruncateTable s job [false, true]).2.2 = some DDLErr.transient →
      (onTruncateTable s job [false, true]).2.1.state = JobState.cancelled) ∧
    ((onTruncateTable s job [false, false, true]).2.2 = some DDLErr.transient →
      (onTruncateTable s job [false, false, true]).2.1.state = JobState.cancelled) ∧
    ((onTruncateTable s job [false, false, false, true]).2.2 = some DDLErr.transient →
      (onTruncateTable s job [false, false, false, true]).2.1.state = job.state) := by
  refine ⟨?_, ?_, ?_, ?_, ?_, ?_, ?_⟩
  · unfold onCreateTable
    repeat' split
    all_goals simp_all
  · unfold onDropTable
    repeat' split
    all_goals simp_all
  · unfold getTableInfo
    repeat' split
    all_goals simp_all
  · unfold onTruncateTable
    simp only [popFault]
    repeat' split
    all_goals simp_all
  · unfold onTruncateTable
    simp only [popFault]
    repeat' split
    all_goals simp_all
  · unfold onTruncateTable
    simp only [popFault]
    repeat' split
    all_goals simp_all
  · unfold onTruncateTable
    simp only [popFault]
    repeat' split
    all_goals simp_all

/-- Witness for Claim C8's amended theorem: a first-round-trip failure of
the drop handler leaves the job outcome Running, while a failure at the
truncate handler's DropTable round trip cancels the job. -/
theorem transient_error_amended_witness :
    ((onDropTable storePub jobDrop [true]).2.2 = some DDLErr.transient ∧
     (onDropTable storePub jobDrop [true]).2.1.state = jobDrop.state) ∧
    ((onTruncateTable storePub jobTrunc20 [false, true]).2.2 = some DDLErr.transient ∧
     (onTruncateTable storePub jobTrunc20 [false, true]).2.1.state = JobState.cancelled) :=
  ⟨⟨by decide, (transient_error_amended storePub jobDrop [true]).2.1 (by decide)⟩,
   ⟨by decide, (transient_error_amended storePub jobTrunc20 [false, true]).2.2.2.2.1 (by decide)⟩⟩
